import Mathlib

/-!
Verification of the SMTP test-server core against its specification.

The Rust sources are shallowly embedded: byte strings become `List Nat`
(each element a byte value), `&mut` cursor parsers become state-passing
functions, and fallible code returns explicit result types.  Rust slice
indexing that can go out of bounds is modelled by a dedicated `oob`
(panic) outcome rather than by a total default.
-/

namespace SmtpSink

/-- Byte string of an ASCII Lean string (for ASCII text, `Char.toNat` of each
character is exactly its UTF-8 byte). -/
def bytes (s : String) : List Nat := s.data.map Char.toNat

/-- `u8::is_ascii_alphanumeric` -/
def isAlnum (b : Nat) : Bool :=
  (48 ≤ b && b ≤ 57) || (65 ≤ b && b ≤ 90) || (97 ≤ b && b ≤ 122)

/-- `u8::is_ascii` -/
def isAscii (b : Nat) : Bool := b ≤ 127

/-- `<[u8]>::starts_with needle` (first argument is the haystack). -/
def startsWith : List Nat → List Nat → Bool
  | _, [] => true
  | [], _ :: _ => false
  | a :: as, b :: bs => a == b && startsWith as bs

/-- `u8::to_ascii_lowercase` -/
def toLowerByte (b : Nat) : Nat := if 65 ≤ b && b ≤ 90 then b + 32 else b

/-- `eq_ignore_ascii_case` on byte strings: equal length and bytes equal up to
ASCII case.  Equality of the lower-cased images implies equal lengths, so this
single comparison is faithful. -/
def eqIgnoreCase (a b : List Nat) : Bool :=
  a.map toLowerByte == b.map toLowerByte

/-- Case-insensitive `starts_with`, as in `expect_caseless`:
`needle.len() <= self.len() && self[..needle.len()].eq_ignore_ascii_case(needle)`. -/
def startsWithCaseless (hay needle : List Nat) : Bool :=
  needle.length ≤ hay.length && eqIgnoreCase (hay.take needle.length) needle

/-- `<[u8]>::ends_with needle` (first argument is the haystack). -/
def endsWith (hay needle : List Nat) : Bool :=
  needle.length ≤ hay.length && startsWith (hay.drop (hay.length - needle.length)) needle

instance {e a : Type} [DecidableEq e] [DecidableEq a] : DecidableEq (Except e a) := fun x y =>
  match x, y with
  | .ok v, .ok w => if h : v = w then isTrue (by rw [h]) else isFalse (by simp [h])
  | .error v, .error w => if h : v = w then isTrue (by rw [h]) else isFalse (by simp [h])
  | .ok _, .error _ => isFalse (by simp)
  | .error _, .ok _ => isFalse (by simp)

-- ======================================================================
-- src/smtp/syntax.rs — SMTP command grammar over plain byte slices.
--
-- Parsers have type `List Nat → SRes α`.  `SRes.ok v rest` is success with
-- the un-consumed suffix; `SRes.errS` is `Err(SyntaxError)` (callers that
-- backtrack resume from their own saved slice, which matches the source,
-- where every alternative is wrapped in `atomic`); `SRes.oob` is a Rust
-- index-out-of-bounds panic.
-- ======================================================================

namespace Smtp

inductive SRes (α : Type) where
  | oob : SRes α
  | errS : SRes α
  | ok (value : α) (rest : List Nat) : SRes α
deriving DecidableEq, Repr

/-- count of the longest prefix of `Ldh` bytes (`ALPHA / DIGIT / "-"`), i.e.
the `while` loop advancing `offset` in `domain`. -/
def ldhCount : List Nat → Nat
  | [] => 0
  | b :: rest => if isAlnum b || b == 45 then ldhCount rest + 1 else 0

/-- The `loop` of `smtp::syntax::domain`.  Each iteration requires
`line[offset]` to be alphanumeric (indexing panics when `offset` is past the
end, which happens exactly on empty input), consumes an `Ldh-str`, rejects a
trailing `-`, and stops unless the next byte is `.` — in which case the loop
repeats *without consuming the dot*, so the next iteration fails on the dot. -/
def domainGo (line : List Nat) (offset : Nat) : SRes (List Nat) :=
  if hlt : offset < line.length then
    if !isAlnum (line.get ⟨offset, hlt⟩) then .errS
    else
      let off1 := offset + 1 + ldhCount (line.drop (offset + 1))
      if line.getD (off1 - 1) 0 == 45 then .errS
      else if off1 < line.length ∧ line.getD off1 0 == 46 then
        domainGo line off1
      else
        .ok (line.take off1) (line.drop off1)
  else .oob
termination_by line.length - offset
decreasing_by
  simp only [off1] at *
  omega

/-- `smtp::syntax::domain` (the `atomic` wrapper is implicit: on `errS` a
backtracking caller resumes from its own slice). -/
def domain (line : List Nat) : SRes (List Nat) := domainGo line 0

/-- `char::to_digit(radix)` for a byte. -/
def digitVal (radix b : Nat) : Option Nat :=
  if 48 ≤ b && b ≤ 57 && b - 48 < radix then some (b - 48)
  else if 97 ≤ b && b ≤ 122 && b - 87 < radix then some (b - 87)
  else if 65 ≤ b && b ≤ 90 && b - 55 < radix then some (b - 55)
  else none

/-- The digit-accumulation loop of `smtp::syntax::read_number`; returns
(value, digit count, rest). -/
def readNumGo (radix maxDigits : Nat) : List Nat → Nat → Nat → Nat × Nat × List Nat
  | line, value, count =>
    match line with
    | [] => (value, count, line)
    | b :: rest =>
      if count < maxDigits then
        match digitVal radix b with
        | some d => readNumGo radix maxDigits rest (value * radix + d) (count + 1)
        | none => (value, count, line)
      else (value, count, line)

/-- `smtp::syntax::read_number::<T>`: at least one digit, value must fit in the
integer type (`bound` is that type's maximum). -/
def read_number (radix maxDigits bound : Nat) (line : List Nat) : SRes Nat :=
  let (value, count, rest) := readNumGo radix maxDigits line 0 0
  if count == 0 then .errS
  else if value ≤ bound then .ok value rest
  else .errS

inductive IpAddr where
  | v4 (a b c d : Nat) : IpAddr
  | v6 (groups : List Nat) : IpAddr
deriving DecidableEq, Repr

/-- `smtp::syntax::address_ipv4` — note the source reads four `Snum`s back to
back and never consumes the `.` separators. -/
def address_ipv4 (line : List Nat) : SRes (Nat × Nat × Nat × Nat) :=
  match read_number 10 3 255 line with
  | .ok a r1 =>
    match read_number 10 3 255 r1 with
    | .ok b r2 =>
      match read_number 10 3 255 r2 with
      | .ok c r3 =>
        match read_number 10 3 255 r3 with
        | .ok d r4 => .ok (a, b, c, d) r4
        | .errS => .errS
        | .oob => .oob
      | .errS => .errS
      | .oob => .oob
    | .errS => .errS
    | .oob => .oob
  | .errS => .errS
  | .oob => .oob

/-- One group of `read_groups`: `atomic(|line| { if i > 0 expect ":"; read_number(16, 4) })`. -/
def groupParse (i : Nat) (line : List Nat) : Option (Nat × List Nat) :=
  let line1 := if i > 0 then
      (if startsWith line [58] then some (line.drop 1) else none)
    else some line
  match line1 with
  | none => none
  | some l2 =>
    match read_number 16 4 65535 l2 with
    | .ok g rest => some (g, rest)
    | _ => none

/-- `read_groups` inside `address_ipv6`: `remaining` counts the group slots
left (`remaining ≥ 2` is the source's `i < limit - 1` gate for a trailing
embedded IPv4 address).  Returns (groups written, embedded-ipv4 flag, rest). -/
def readGroupsGo : Nat → Nat → List Nat → List Nat → List Nat × Bool × List Nat
  | 0, _, acc, line => (acc, false, line)
  | rem + 1, i, acc, line =>
    match (if 2 ≤ rem + 1 then
        (match address_ipv4 line with
         | .ok (a, b, c, d) rest => some (a * 256 + b, c * 256 + d, rest)
         | _ => none)
      else none) with
    | some (g1, g2, rest) => (acc ++ [g1, g2], true, rest)
    | none =>
      match groupParse i line with
      | some (g, rest) => readGroupsGo rem (i + 1) (acc ++ [g]) rest
      | none => (acc, false, line)

/-- `smtp::syntax::address_ipv6`. -/
def address_ipv6 (line : List Nat) : SRes IpAddr :=
  let (head, headIpv4, r1) := readGroupsGo 8 0 [] line
  if head.length == 8 then .ok (.v6 head) r1
  else if headIpv4 then .errS
  else if startsWith r1 [58, 58] then
    let r2 := r1.drop 2
    let limit := 8 - (head.length + 1)
    let (tail, _, r3) := readGroupsGo limit 0 [] r2
    .ok (.v6 (head ++ List.replicate (8 - head.length - tail.length) 0 ++ tail)) r3
  else .errS

/-- `smtp::syntax::address_literal`. -/
def address_literal (line : List Nat) : SRes IpAddr :=
  if startsWith line [91] then
    let r1 := line.drop 1
    let inner :=
      if startsWith r1 (bytes "IPv6:") then address_ipv6 (r1.drop 5)
      else
        match address_ipv4 r1 with
        | .ok (a, b, c, d) rest => .ok (IpAddr.v4 a b c d) rest
        | .errS => .errS
        | .oob => .oob
    match inner with
    | .ok addr r2 => if startsWith r2 [93] then .ok addr (r2.drop 1) else .errS
    | .errS => .errS
    | .oob => .oob
  else .errS

inductive DomainOrAddr where
  | domain (d : List Nat) : DomainOrAddr
  | addr (a : IpAddr) : DomainOrAddr
deriving DecidableEq, Repr

/-- `smtp::syntax::domain_or_address`: `domain` or else `address_literal`.
A panic in `domain` propagates (no fallback runs). -/
def domain_or_address (line : List Nat) : SRes DomainOrAddr :=
  match domain line with
  | .ok d rest => .ok (.domain d) rest
  | .errS =>
    match address_literal line with
    | .ok a rest => .ok (.addr a) rest
    | .errS => .errS
    | .oob => .oob
  | .oob => .oob

/-- `atext` byte class (identical in `crate::syntax::is_atext` and the match
in `smtp::syntax::atom`). -/
def isAtext (b : Nat) : Bool :=
  b == 33 || b == 35 || b == 36 || b == 37 || b == 38 || b == 39 ||
  b == 42 || b == 43 || b == 45 || b == 47 || b == 61 || b == 63 ||
  b == 94 || b == 95 || b == 96 || b == 123 || b == 124 || b == 125 ||
  b == 126 || isAlnum b

/-- `smtp::syntax::atom` = `1*atext` (also the behaviour of
`crate::syntax::atom`, used for the command keyword). -/
def atom (line : List Nat) : SRes (List Nat) :=
  let text := line.takeWhile isAtext
  if text.isEmpty then .errS else .ok text (line.drop text.length)

/-- The `while cursor.starts_with(b".") { advance(1); atom? }` loop of
`smtp::syntax::dot_string`.  The dead `.errS` guard branch is never taken:
`atom` always consumes at least one byte on success. -/
def dotStringGo (line : List Nat) : SRes Unit :=
  if startsWith line [46] then
    match atom (line.drop 1) with
    | .ok _ rest =>
      if h : rest.length < line.length then dotStringGo rest else .errS
    | .errS => .errS
    | .oob => .oob
  else .ok () line
termination_by line.length

/-- `smtp::syntax::dot_string`; returns the span it consumed. -/
def dot_string (line : List Nat) : SRes (List Nat) :=
  match atom line with
  | .ok _ r1 =>
    match dotStringGo r1 with
    | .ok _ r2 => .ok (line.take (line.length - r2.length)) r2
    | .errS => .errS
    | .oob => .oob
  | .errS => .errS
  | .oob => .oob

/-- Scan of `*QcontentSMTP` in `smtp::syntax::quoted_string`; returns the
number of content bytes, `none` on an illegal byte. -/
def qcontentScan : List Nat → Option Nat
  | [] => some 0
  | b :: rest =>
    if b == 34 then some 0
    else if (32 ≤ b && b ≤ 33) || (35 ≤ b && b ≤ 91) || (93 ≤ b && b ≤ 126) then
      (qcontentScan rest).map (· + 1)
    else if b == 92 then
      match rest with
      | c :: rest2 =>
        if 32 ≤ c && c ≤ 126 then (qcontentScan rest2).map (· + 2) else none
      | [] => none -- `92` at the end: the guard `offset + 1 < line.len()` fails,
                   -- so the catch-all arm returns an error
    else none

/-- `smtp::syntax::quoted_string` (`DQUOTE *QcontentSMTP DQUOTE`).
A `\` as the final byte falls through to the catch-all arm and errors. -/
def quoted_string (line : List Nat) : SRes (List Nat) :=
  if startsWith line [34] then
    let r1 := line.drop 1
    match qcontentScan r1 with
    | some n =>
      let r2 := r1.drop n
      if startsWith r2 [34] then .ok (r1.take n) (r2.drop 1) else .errS
    | none => .errS
  else .errS

structure MailboxV where
  local_ : List Nat
  location : DomainOrAddr
deriving DecidableEq, Repr

/-- `smtp::syntax::mailbox` = `Local-part "@" (Domain / address-literal)`,
local part `quoted_string` or else `dot_string`. -/
def mailbox (line : List Nat) : SRes MailboxV :=
  let localRes :=
    match quoted_string line with
    | .ok l rest => SRes.ok l rest
    | .errS => dot_string line
    | .oob => .oob
  match localRes with
  | .ok l r1 =>
    if startsWith r1 [64] then
      match domain_or_address (r1.drop 1) with
      | .ok loc r2 => .ok ⟨l, loc⟩ r2
      | .errS => .errS
      | .oob => .oob
    else .errS
  | .errS => .errS
  | .oob => .oob

/-- The `A-d-l` loop of `smtp::syntax::path`: `"@" Domain` list, terminated by
`:` (break) or continued by `,`.  The dead `.errS` guard branch is never
taken: `domain` always consumes at least one byte on success. -/
def adlGo (line : List Nat) : SRes Unit :=
  if startsWith line [64] then
    match domain (line.drop 1) with
    | .ok _ rest =>
      if startsWith rest [58] then .ok () (rest.drop 1)
      else if startsWith rest [44] then
        if h : (rest.drop 1).length < line.length then adlGo (rest.drop 1)
        else .errS
      else .errS
    | .errS => .errS
    | .oob => .oob
  else .errS
termination_by line.length
decreasing_by
  simp only [List.length_drop] at *
  omega

/-- `smtp::syntax::path` = `"<" [ A-d-l ":" ] Mailbox ">"`. -/
def path (line : List Nat) : SRes MailboxV :=
  if startsWith line [60] then
    let r1 := line.drop 1
    let routed :=
      if startsWith r1 [64] then adlGo r1
      else .ok () r1
    match routed with
    | .ok _ r2 =>
      match mailbox r2 with
      | .ok mb r3 => if startsWith r3 [62] then .ok mb (r3.drop 1) else .errS
      | .errS => .errS
      | .oob => .oob
    | .errS => .errS
    | .oob => .oob
  else .errS

inductive RPath where
  | null : RPath
  | mbox (m : MailboxV) : RPath
deriving DecidableEq, Repr

/-- `smtp::syntax::reverse_path` = `Path / "<>"`. -/
def reverse_path (line : List Nat) : SRes RPath :=
  if startsWith line (bytes "<>") then .ok .null (line.drop 2)
  else
    match path line with
    | .ok mb rest => .ok (.mbox mb) rest
    | .errS => .errS
    | .oob => .oob

inductive FPath where
  | postmaster (d : Option (List Nat)) : FPath
  | mbox (m : MailboxV) : FPath
deriving DecidableEq, Repr

/-- `smtp::syntax::forward_path`. -/
def forward_path (line : List Nat) : SRes FPath :=
  if startsWithCaseless line (bytes "<postmaster>") then
    .ok (.postmaster none) (line.drop 12)
  else
    match path line with
    | .ok mb rest =>
      if eqIgnoreCase mb.local_ (bytes "postmaster") then
        match mb.location with
        | .domain d => .ok (.postmaster (some d)) rest
        | .addr _ => .errS
      else .ok (.mbox mb) rest
    | .errS => .errS
    | .oob => .oob

/-- `smtp::syntax::parameter` = `esmtp-keyword "=" esmtp-value`.  The keyword
`take_while` predicate allows `-` only at index > 0; both keyword and value
must be non-empty. -/
def parameter (line : List Nat) : SRes (List Nat × List Nat) :=
  let keyword :=
    match line with
    | [] => ([] : List Nat)
    | b :: rest =>
      if isAlnum b then b :: rest.takeWhile (fun c => isAlnum c || c == 45) else []
  let r1 := line.drop keyword.length
  if startsWith r1 [61] then
    let r2 := r1.drop 1
    let value := r2.takeWhile (fun c => (33 ≤ c && c ≤ 60) || (62 ≤ c && c ≤ 126))
    let r3 := r2.drop value.length
    if keyword.isEmpty || value.isEmpty then .errS else .ok (keyword, value) r3
  else .errS

/-- `smtp::syntax::string` = `Atom / Quoted-string`. -/
def stringArg (line : List Nat) : SRes (List Nat) :=
  match atom line with
  | .ok v rest => .ok v rest
  | .errS => quoted_string line
  | .oob => .oob

-- ======================================================================
-- src/smtp/proto.rs — command parsing and the per-connection state machine.
-- ======================================================================

inductive Command where
  | hello (extended : Bool) (client : DomainOrAddr) : Command
  | mail (reverse : RPath) (size : Option Nat) : Command
  | recipient (rcpt : FPath) : Command
  | data : Command
  | reset : Command
  | verify (s : List Nat) : Command
  | expand (s : List Nat) : Command
  | help (topic : Option (List Nat)) : Command
  | noop : Command
  | quit : Command
deriving DecidableEq, Repr

/-- Result of `Command::parse`: success, `CommandParseError::Syntax`,
`CommandParseError::Unknown`, or a panic inside parsing. -/
inductive CRes where
  | oob : CRes
  | errSyntax : CRes
  | errUnknown : CRes
  | ok (c : Command) (rest : List Nat) : CRes
deriving DecidableEq, Repr

/-- `Command::parse_helo`: `expect(b" ")` then `domain`. -/
def parse_helo (line : List Nat) : CRes :=
  if startsWith line [32] then
    match domain (line.drop 1) with
    | .ok d rest => .ok (.hello false (.domain d)) rest
    | .errS => .errSyntax
    | .oob => .oob
  else .errSyntax

/-- `Command::parse_ehlo`: `expect(b" ")` then `domain_or_address`. -/
def parse_ehlo (line : List Nat) : CRes :=
  if startsWith line [32] then
    match domain_or_address (line.drop 1) with
    | .ok c rest => .ok (.hello true c) rest
    | .errS => .errSyntax
    | .oob => .oob
  else .errSyntax

/-- `str::parse::<usize>` on the raw bytes of an esmtp parameter value:
every byte must be an ASCII digit and the value must fit in 64 bits. -/
def parseUsize (v : List Nat) : Option Nat :=
  if v.isEmpty then none
  else if v.all (fun b => 48 ≤ b && b ≤ 57) then
    let n := v.foldl (fun acc b => acc * 10 + (b - 48)) 0
    if n < 2 ^ 64 then some n else none
  else none

/-- Result of the extension loop of `Command::parse_mail`. -/
inductive MParams where
  | done (size : Option Nat) (rest : List Nat) : MParams
  | errSyntax : MParams
deriving DecidableEq, Repr

/-- The `while line.expect(b" ").is_ok()` extension loop of
`Command::parse_mail`.  Accepts only `SIZE=<usize>`, once; a duplicate or an
unknown extension is a syntax error.  The dead `.errSyntax` guard branch is
never taken: a successful `parameter` consumes at least three bytes. -/
def mailParamsGo (line : List Nat) (size : Option Nat) : MParams :=
  if startsWith line [32] then
    match parameter (line.drop 1) with
    | .ok (keyword, value) rest =>
      if eqIgnoreCase keyword (bytes "SIZE") then
        if size.isSome then .errSyntax
        else
          match parseUsize value with
          | some n =>
            if h : rest.length < line.length then mailParamsGo rest (some n)
            else .errSyntax
          | none => .errSyntax
      else .errSyntax
    | .errS => .errSyntax
    | .oob => .errSyntax -- `parameter` is total; this arm is dead
  else .done size line
termination_by line.length

/-- `Command::parse_mail`: `expect_caseless(b" FROM:")`, `reverse_path`, then
the extension loop. -/
def parse_mail (line : List Nat) : CRes :=
  if startsWithCaseless line (bytes " FROM:") then
    match reverse_path (line.drop 6) with
    | .ok rp r1 =>
      match mailParamsGo r1 none with
      | .done size rest => .ok (.mail rp size) rest
      | .errSyntax => .errSyntax
    | .errS => .errSyntax
    | .oob => .oob
  else .errSyntax

/-- `Command::parse_rcpt`: `expect_caseless(b" TO:")` then `forward_path`. -/
def parse_rcpt (line : List Nat) : CRes :=
  if startsWithCaseless line (bytes " TO:") then
    match forward_path (line.drop 4) with
    | .ok fp rest => .ok (.recipient fp) rest
    | .errS => .errSyntax
    | .oob => .oob
  else .errSyntax

/-- `Command::parse_vrfy`. -/
def parse_vrfy (line : List Nat) : CRes :=
  if startsWith line [32] then
    match stringArg (line.drop 1) with
    | .ok s rest => .ok (.verify s) rest
    | .errS => .errSyntax
    | .oob => .oob
  else .errSyntax

/-- `Command::parse_expn`. -/
def parse_expn (line : List Nat) : CRes :=
  if startsWith line [32] then
    match stringArg (line.drop 1) with
    | .ok s rest => .ok (.expand s) rest
    | .errS => .errSyntax
    | .oob => .oob
  else .errSyntax

/-- `Command::parse_help`: optional ` <string>` topic. -/
def parse_help (line : List Nat) : CRes :=
  if startsWith line [32] then
    match stringArg (line.drop 1) with
    | .ok s rest => .ok (.help (some s)) rest
    | .errS => .errSyntax
    | .oob => .oob
  else .ok (.help none) line

/-- `Command::parse_noop`: an argument, if present, must still parse. -/
def parse_noop (line : List Nat) : CRes :=
  if startsWith line [32] then
    match stringArg (line.drop 1) with
    | .ok _ rest => .ok .noop rest
    | .errS => .errSyntax
    | .oob => .oob
  else .ok .noop line

/-- Keyword dispatch of `Command::parse` (after the leading `atom`). -/
def dispatchKeyword (keyword line : List Nat) : CRes :=
  if eqIgnoreCase keyword (bytes "HELO") then parse_helo line
  else if eqIgnoreCase keyword (bytes "EHLO") then parse_ehlo line
  else if eqIgnoreCase keyword (bytes "MAIL") then parse_mail line
  else if eqIgnoreCase keyword (bytes "RCPT") then parse_rcpt line
  else if eqIgnoreCase keyword (bytes "DATA") then .ok .data line
  else if eqIgnoreCase keyword (bytes "RSET") then .ok .reset line
  else if eqIgnoreCase keyword (bytes "VRFY") then parse_vrfy line
  else if eqIgnoreCase keyword (bytes "EXPN") then parse_expn line
  else if eqIgnoreCase keyword (bytes "HELP") then parse_help line
  else if eqIgnoreCase keyword (bytes "NOOP") then parse_noop line
  else if eqIgnoreCase keyword (bytes "QUIT") then .ok .quit line
  else .errUnknown

/-- `Command::parse`: strip a trailing CRLF, read the keyword atom, dispatch,
then `expect_empty`. -/
def Command.parse (line0 : List Nat) : CRes :=
  let line := if endsWith line0 [13, 10] then line0.take (line0.length - 2) else line0
  match atom line with
  | .ok keyword r1 =>
    (match dispatchKeyword keyword r1 with
     | .ok c rest => if rest.isEmpty then .ok c [] else .errSyntax
     | other => other)
  | .errS => .errSyntax
  | .oob => .oob

/-- `proto::State` (the session state). -/
inductive ConnState where
  | handshake : ConnState
  | relaxed : ConnState
  | recipients : ConnState
  | dataState : ConnState
deriving DecidableEq, Repr

/-- The fields of `proto::Connection` that the protocol logic reads or
writes (the byte buffers and socket identities are I/O plumbing;
`message.capacity()` is `config.message_size`). -/
structure Conn where
  state : ConnState
  reverse_path : Option RPath
  forward_path : List FPath
  message_capacity : Nat
deriving DecidableEq, Repr

/-- The responses `Connection` can produce, by constant / constructor. -/
inductive Resp where
  | ok250 : Resp
  | greeting250 (extended : Bool) : Resp
  | startMailInput354 : Resp
  | notImplemented502 : Resp
  | invalidCharacters500 : Resp
  | lineTooLong500 : Resp
  | badSequence503 : Resp
  | tooMuchMailData552 : Resp
  | messageSize552 : Resp
  | commandSyntax500 : Resp
  | commandUnknown500 : Resp
  | closing221 : Resp
  | helpList214 : Resp
  | helpTopic504 : Resp
deriving DecidableEq, Repr

/-- `Connection::reset_buffers` (the message buffer itself is not modelled). -/
def Conn.reset_buffers (c : Conn) : Conn :=
  { c with reverse_path := none, forward_path := [], state := .relaxed }

/-- `Connection::handshake`. -/
def Conn.handshake (c : Conn) (extended : Bool) : Resp × Conn :=
  (.greeting250 extended, c.reset_buffers)

/-- `Connection::mail` — note: no session-state check at all. -/
def Conn.mail (c : Conn) (reverse : RPath) (size : Option Nat) : Resp × Conn :=
  match size with
  | some s =>
    if s ≥ c.message_capacity then (.messageSize552, c)
    else
      (.ok250, { c.reset_buffers with reverse_path := some reverse, state := .recipients })
  | none =>
    (.ok250, { c.reset_buffers with reverse_path := some reverse, state := .recipients })

/-- `Connection::recipient`. -/
def Conn.recipient (c : Conn) (rcpt : FPath) : Resp × Conn :=
  if c.state ≠ .recipients then (.badSequence503, c)
  else (.ok250, { c with forward_path := c.forward_path ++ [rcpt] })

/-- `Connection::data`. -/
def Conn.dataCmd (c : Conn) : Resp × Conn :=
  if c.state ≠ .recipients ∨ c.forward_path.isEmpty then (.badSequence503, c)
  else (.startMailInput354, { c with state := .dataState })

/-- `Connection::reset`. -/
def Conn.reset (c : Conn) : Resp × Conn := (.ok250, c.reset_buffers)

/-- `Connection::help`. -/
def Conn.help (c : Conn) (topic : Option (List Nat)) : Resp × Conn :=
  match topic with
  | none => (.helpList214, c)
  | some _ => (.helpTopic504, c)

/-- `Connection::close`. -/
def Conn.close (c : Conn) : Resp × Conn := (.closing221, c)

/-- Outcome of `Connection::line` for one received line. -/
inductive LineOut where
  | response (r : Resp) : LineOut
  | noResponse : LineOut
  | dataModeStep : LineOut
  | panicked : LineOut
deriving DecidableEq, Repr

/-- `Connection::line`.  The `State::Data` branch (`data_line`: body framing
and `store.submit`) crosses the store boundary and is out of scope here, so it
is represented by the explicit `dataModeStep` outcome; every command path is
modelled in full.  A panic inside `Command::parse` is `panicked`. -/
def Conn.line (c : Conn) (line : List Nat) (overflow : Bool) : LineOut × Conn :=
  if overflow then
    match c.state with
    | .dataState => (.response .tooMuchMailData552, { c with state := .relaxed })
    | _ => (.response .lineTooLong500, c)
  else if c.state = .dataState then (.dataModeStep, c)
  else if !(line.all isAscii) then (.response .invalidCharacters500, c)
  else
    match Command.parse line with
    | .oob => (.panicked, c)
    | .errSyntax => (.response .commandSyntax500, c)
    | .errUnknown => (.response .commandUnknown500, c)
    | .ok cmd _ =>
      match cmd with
      | .hello extended _ => let (r, c2) := c.handshake extended; (.response r, c2)
      | .mail rp size => let (r, c2) := c.mail rp size; (.response r, c2)
      | .recipient rcpt => let (r, c2) := c.recipient rcpt; (.response r, c2)
      | .data => let (r, c2) := c.dataCmd; (.response r, c2)
      | .reset => let (r, c2) := c.reset; (.response r, c2)
      | .verify _ => (.response .notImplemented502, c)
      | .expand _ => (.response .notImplemented502, c)
      | .help topic => let (r, c2) := c.help topic; (.response r, c2)
      | .noop => (.response .ok250, c)
      | .quit => let (r, c2) := c.close; (.response r, c2)

end Smtp

-- ======================================================================
-- src/syntax.rs — the shared position-tracking cursor (`Buffer`).
--
-- A Rust `&mut Buffer` parser becomes a state-passing function
-- `Buffer → Except (Located SynError) α × Buffer`: the returned buffer is the
-- cursor state after the call, whether or not it succeeded (which is how
-- non-`atomic` failures leave a partially advanced cursor, exactly as in the
-- source).  Error message texts that the programs never inspect are kept
-- short; no theorem depends on them.
-- ======================================================================

namespace Cursor

structure Location where
  offset : Nat
  line : Nat
  column : Nat
deriving DecidableEq, Repr

/-- `Located<E>` (the source field `at` is a Lean keyword, hence `at_`). -/
structure Located (α : Type) where
  at_ : Location
  item : α
deriving DecidableEq, Repr

inductive SynError where
  | expected (needle : List Nat) : SynError
  | expectedEnd : SynError
  | custom (msg : String) : SynError
deriving DecidableEq, Repr

/-- `Location::ZERO` -/
def Location.zero : Location := ⟨0, 1, 1⟩

/-- The start positions of every `\r\n` occurrence in a byte string
(`memmem::find_iter(_, b"\r\n")`).  Occurrences of a two-byte pattern whose
two bytes differ can never overlap, so this forward scan lists them all. -/
def crlfPosGo : Nat → List Nat → List Nat
  | _, [] => []
  | i, 13 :: 10 :: rest => i :: crlfPosGo (i + 2) rest
  | i, _ :: rest => crlfPosGo (i + 1) rest

def crlfPositions (l : List Nat) : List Nat := crlfPosGo 0 l

structure Buffer where
  location : Location
  data : List Nat
deriving DecidableEq, Repr

/-- `Buffer::new` -/
def Buffer.new (data : List Nat) : Buffer := ⟨⟨0, 1, 1⟩, data⟩

/-- `Buffer::advance`: consume `n` bytes; `line` grows by the number of CRLF
pairs in the consumed window, `column` restarts after the last CRLF
(`memmem::rfind`), or grows by `n` if there is none. -/
def Buffer.advance (b : Buffer) (n : Nat) : Buffer :=
  let w := b.data.take n
  { location :=
      { offset := b.location.offset + n
        line := b.location.line + (crlfPositions w).length
        column :=
          match (crlfPositions w).getLast? with
          | some i => n - i + 1
          | none => b.location.column + n }
    data := b.data.drop n }

/-- The result type `syntax::Result<T>` of a cursor parser, paired with the
cursor state after the call. -/
abbrev PRes (α : Type) := Except (Located SynError) α × Buffer

/-- `Buffer::atomic`: run `f` on a copy; commit its state on success, keep the
original state on failure. -/
def Buffer.atomic (f : Buffer → PRes α) (b : Buffer) : PRes α :=
  match f b with
  | (.ok v, c) => (.ok v, c)
  | (.error e, _) => (.error e, b)

/-- `Buffer::expect` -/
def Buffer.expect (needle : List Nat) (b : Buffer) : PRes Unit :=
  if startsWith b.data needle then (.ok (), b.advance needle.length)
  else (.error ⟨b.location, .expected needle⟩, b)

/-- `Buffer::expect_empty` -/
def Buffer.expect_empty (b : Buffer) : PRes Unit :=
  if b.data.isEmpty then (.ok (), b)
  else (.error ⟨b.location, .expectedEnd⟩, b)

/-- `Buffer::take_while` (the uses modelled here never look at the index
argument of the predicate). -/
def Buffer.take_while (test : Nat → Bool) (b : Buffer) : List Nat × Buffer :=
  let run := b.data.takeWhile test
  (run, b.advance run.length)

/-- `Buffer::take_matching` -/
def Buffer.take_matching (f : Buffer → PRes Unit) (b : Buffer) : PRes (List Nat) :=
  match f b with
  | (.ok _, c) =>
    let n := b.data.length - c.data.length
    (.ok (b.data.take n), b.advance n)
  | (.error e, _) => (.error e, b)

/-- `Buffer::maybe` = `atomic(f).ok()` -/
def Buffer.maybe (f : Buffer → PRes α) (b : Buffer) : Option α × Buffer :=
  match Buffer.atomic f b with
  | (.ok v, c) => (some v, c)
  | (.error _, c) => (none, c)

/-- `is_wsp` -/
def isWsp (b : Nat) : Bool := b == 32 || b == 9

/-- `is_vchar` -/
def isVchar (b : Nat) : Bool := 0x21 ≤ b && b ≤ 0x7e

/-- `syntax::wsp`: one WSP byte. -/
def wsp (b : Buffer) : PRes Unit :=
  match b.data with
  | c :: _ =>
    if isWsp c then (.ok (), b.advance 1)
    else (.error ⟨b.location, .custom "expected wsp"⟩, b)
  | [] => (.error ⟨b.location, .custom "expected wsp"⟩, b)

end Cursor

-- ======================================================================
-- src/mail/syntax.rs and src/mail/mod.rs — RFC 5322 pieces used by the
-- claims: folding white space, `unstructured`/`unfold`, message separation,
-- and the header-collection loop of `mail::parse` with `set_once`.
-- ======================================================================

namespace Mail

open Cursor

/-- `mail::syntax::fws`: `[*WSP CRLF] 1*WSP` — optional leading WSP, then
optionally an atomic `CRLF` + one WSP; fails only if nothing was accepted. -/
def fws (b : Buffer) : PRes Unit :=
  let (before, b1) := Buffer.take_while isWsp b
  let (afterRes, b2) := Buffer.atomic (fun c =>
    match Buffer.expect [13, 10] c with
    | (.ok _, c1) => wsp c1
    | (.error e, c1) => (.error e, c1)) b1
  match afterRes with
  | .ok _ => (.ok (), b2)
  | .error _ =>
    if before.isEmpty then (.error ⟨b2.location, .custom "expected wsp"⟩, b2)
    else (.ok (), b2)

/-- The `loop` inside `unstructured`'s `take_matching` closure:
`maybe(fws)` then a VCHAR run; stop when the run is empty.  The final
fallback branch is dead: the guard always holds because a non-empty run was
just consumed. -/
def unstructuredLoop (b : Buffer) : Buffer :=
  let b1 := (Buffer.maybe fws b).2
  let (run, b2) := Buffer.take_while isVchar b1
  if run.isEmpty then b1
  else if _h : b2.data.length < b.data.length then unstructuredLoop b2
  else b2
termination_by b.data.length

/-- A foldable span (`mail::syntax::Folded`). -/
structure Folded where
  span : List Nat
deriving DecidableEq, Repr

/-- `mail::syntax::unstructured`: capture the span matched by the loop, then
consume trailing WSP (`while wsp(buf).is_ok()`). -/
def unstructured (b : Buffer) : PRes Folded :=
  let c := unstructuredLoop b
  let n := b.data.length - c.data.length
  let span := b.data.take n
  let b1 := b.advance n
  let (_, b2) := Buffer.take_while isWsp b1
  (.ok ⟨span⟩, b2)

/-- Byte index of the first occurrence of `t` (`str::find` on a one-byte
pattern). -/
def findByte (t : Nat) : List Nat → Option Nat
  | [] => none
  | b :: rest => if b == t then some 0 else (findByte t rest).map (· + 1)

/-- The `while let Some(inx) = rest.find('\r')` loop of `Folded::unfold`:
push `rest[..inx]`, then `rest = &rest[2..]` — dropping two bytes from the
*start* of `rest`, not from after the CR — and never appending the final
`rest` after the loop.  (When the found CR is the last byte, the Rust slice
`&rest[2..]` would panic; parsed spans never end in a bare CR.) -/
def unfoldGo (rest acc : List Nat) : List Nat :=
  match h : findByte 13 rest with
  | none => acc
  | some inx => unfoldGo (rest.drop 2) (acc ++ rest.take inx)
termination_by rest.length
decreasing_by
  cases rest with
  | nil => simp [findByte] at h
  | cons x xs => simp only [List.drop_succ_cons, List.length_cons, List.length_drop]; omega

/-- `mail::syntax::Folded::unfold` (the `Cow` borrow branch returns the whole
span when nothing was accumulated). -/
def Folded.unfold (f : Folded) : List Nat :=
  let result := unfoldGo f.span []
  if result.isEmpty then f.span else result

/-- Modelled from the spec sentence "`unfold` removes CRLF pairs": the span
with each two-byte CRLF pair removed and all other bytes kept in order.
Defined only to compare against `Folded.unfold`. -/
def specCrlfRemoved : List Nat → List Nat
  | [] => []
  | 13 :: 10 :: rest => specCrlfRemoved rest
  | b :: rest => b :: specCrlfRemoved rest

/-- `memmem::find(message, b"\r\n\r\n")` -/
def findSeq4 : List Nat → Option Nat
  | [] => none
  | b :: rest =>
    if startsWith (b :: rest) [13, 10, 13, 10] then some 0
    else (findSeq4 rest).map (· + 1)

/-- `mail::separate_message`: split at the first `CRLF CRLF`; the header keeps
its final CRLF (`header_end = cr + 2`), the body starts past the separator
(`body_start = cr + 4`), and the body location counts the CRLFs before it. -/
def separate_message (message : List Nat) : List Nat × Located (List Nat) :=
  let ends := match findSeq4 message with
    | some cr => (cr + 2, cr + 4)
    | none => (message.length, message.length)
  let header := message.take ends.1
  let body := message.drop ends.2
  let line := (crlfPositions (message.take ends.2)).length + 1
  (header, ⟨⟨header.length, line, 1⟩, body⟩)

/-- `util::SetOnce::set_once`: install into an empty slot, or report a located
`duplicate header <name>` error. -/
def set_once (slot : Option α) (at_ : Location) (header : String) (v : α) :
    Except (Located SynError) (Option α) :=
  match slot with
  | some _ => .error ⟨at_, .custom ("duplicate header " ++ header)⟩
  | none => .ok (some v)

/-- The `Header` variants dispatched by the loop of `mail::parse`
(mail/mod.rs lines 101–151).  The loop treats every payload other than
`Subject`/`Comments` opaquely, so payloads are carried as their source byte
spans. -/
inductive Header where
  | originationDate (v : List Nat) : Header
  | fromHeader (v : List Nat) : Header
  | sender (v : List Nat) : Header
  | replyTo (v : List Nat) : Header
  | toHeader (v : List Nat) : Header
  | carbonCopy (v : List Nat) : Header
  | blindCarbonCopy (v : List Nat) : Header
  | messageId (v : List Nat) : Header
  | inReplyTo (v : List Nat) : Header
  | references (v : List Nat) : Header
  | subject (v : Folded) : Header
  | comments (v : Folded) : Header
  | keywords (v : List Nat) : Header
  | resentDate (v : List Nat) : Header
  | resentFrom (v : List Nat) : Header
  | resentSender (v : List Nat) : Header
  | resentTo (v : List Nat) : Header
  | resentCarbonCopy (v : List Nat) : Header
  | resentBlindCarbonCopy (v : List Nat) : Header
  | resentMessageId (v : List Nat) : Header
  | returnPath (v : List Nat) : Header
  | received (v : List Nat) : Header
  | mimeVersion (v : List Nat) : Header
  | contentType (v : List Nat) : Header
  | contentTransferEncoding (v : List Nat) : Header
  | contentId (v : List Nat) : Header
  | contentDescription (v : List Nat) : Header
  | optionalHeader (name : List Nat) (body : Folded) : Header
deriving DecidableEq, Repr

/-- The single-occurrence slots initialised to `None` before the header loop
of `mail::parse` (`comments` and `keywords` accumulate lists instead). -/
structure Slots where
  origination_date : Option (List Nat) := none
  from_ : Option (List Nat) := none
  sender : Option (List Nat) := none
  reply_to : Option (List Nat) := none
  to_ : Option (List Nat) := none
  cc : Option (List Nat) := none
  bcc : Option (List Nat) := none
  id : Option (List Nat) := none
  in_reply_to : Option (List Nat) := none
  references : Option (List Nat) := none
  subject : Option (List Nat) := none
  comments : List (List Nat) := []
  keywords : List (List Nat) := []
  mime_version : Option (List Nat) := none
  content_type : Option (List Nat) := none
  transfer_encoding : Option (List Nat) := none
  content_id : Option (List Nat) := none
  content_description : Option (List Nat) := none
deriving DecidableEq, Repr

def Slots.init : Slots := {}

/-- One iteration of the `while !header.is_empty()` loop of `mail::parse`:
either `syntax::field` succeeded with a located header, or it failed and the
`optional_field` recovery skipped the line, recording the original error. -/
inductive FieldEvent where
  | parsedField (at_ : Location) (h : Header) : FieldEvent
  | failedField (at_ : Location) (fieldName : String) (msg : String) : FieldEvent
deriving DecidableEq, Repr

/-- Outcome of the header-collection loop. -/
inductive LoopOut where
  | panicked : LoopOut
  | failed (e : Located SynError) : LoopOut
  | finished (s : Slots) (errs : List (Located String)) : LoopOut
deriving DecidableEq, Repr

/-- The header-collection loop of `mail::parse` (mail/mod.rs lines 89–152),
abstracted over the stream of `(location, syntax::field result)` events the
cursor produces.  Every `set_once` result is propagated with `?`, so a
duplicate recognised header *aborts* the parse; a failed field is skipped and
recorded (`errors.add`); `Resent-*`/`Return-Path`/`Received` reaching this
loop hit `todo!()` (a panic); unrecognised headers are only logged. -/
def processFields : List FieldEvent → Slots → List (Located String) → LoopOut
  | [], s, errs => .finished s errs
  | .failedField at_ name msg :: rest, s, errs =>
    processFields rest s
      (errs ++ [⟨at_, "syntax error in header field " ++ name ++ " - " ++ msg⟩])
  | .parsedField at_ h :: rest, s, errs =>
    match h with
    | .originationDate v =>
      match set_once s.origination_date at_ "Origination-Date" v with
      | .error e => .failed e
      | .ok slot => processFields rest { s with origination_date := slot } errs
    | .fromHeader v =>
      match set_once s.from_ at_ "From" v with
      | .error e => .failed e
      | .ok slot => processFields rest { s with from_ := slot } errs
    | .sender v =>
      match set_once s.sender at_ "Sender" v with
      | .error e => .failed e
      | .ok slot => processFields rest { s with sender := slot } errs
    | .replyTo v =>
      match set_once s.reply_to at_ "Reply-To" v with
      | .error e => .failed e
      | .ok slot => processFields rest { s with reply_to := slot } errs
    | .toHeader v =>
      match set_once s.to_ at_ "To" v with
      | .error e => .failed e
      | .ok slot => processFields rest { s with to_ := slot } errs
    | .carbonCopy v =>
      match set_once s.cc at_ "Carbon-Copy" v with
      | .error e => .failed e
      | .ok slot => processFields rest { s with cc := slot } errs
    | .blindCarbonCopy v =>
      match set_once s.bcc at_ "Blind-Carbon-Copy" v with
      | .error e => .failed e
      | .ok slot => processFields rest { s with bcc := slot } errs
    | .messageId v =>
      match set_once s.id at_ "Message-ID" v with
      | .error e => .failed e
      | .ok slot => processFields rest { s with id := slot } errs
    | .inReplyTo v =>
      match set_once s.in_reply_to at_ "InReply-To" v with
      | .error e => .failed e
      | .ok slot => processFields rest { s with in_reply_to := slot } errs
    | .references v =>
      match set_once s.references at_ "References" v with
      | .error e => .failed e
      | .ok slot => processFields rest { s with references := slot } errs
    | .subject v =>
      match set_once s.subject at_ "Subject" v.unfold with
      | .error e => .failed e
      | .ok slot => processFields rest { s with subject := slot } errs
    | .comments v => processFields rest { s with comments := s.comments ++ [v.unfold] } errs
    | .keywords v => processFields rest { s with keywords := s.keywords ++ [v] } errs
    | .resentDate _ => .panicked
    | .resentFrom _ => .panicked
    | .resentSender _ => .panicked
    | .resentTo _ => .panicked
    | .resentCarbonCopy _ => .panicked
    | .resentBlindCarbonCopy _ => .panicked
    | .resentMessageId _ => .panicked
    | .returnPath _ => .panicked
    | .received _ => .panicked
    | .mimeVersion v =>
      match set_once s.mime_version at_ "MIME-Version" v with
      | .error e => .failed e
      | .ok slot => processFields rest { s with mime_version := slot } errs
    | .contentType v =>
      match set_once s.content_type at_ "Content-Type" v with
      | .error e => .failed e
      | .ok slot => processFields rest { s with content_type := slot } errs
    | .contentTransferEncoding v =>
      match set_once s.transfer_encoding at_ "Content-Transfer-Encoding" v with
      | .error e => .failed e
      | .ok slot => processFields rest { s with transfer_encoding := slot } errs
    | .contentId v =>
      match set_once s.content_id at_ "Content-ID" v with
      | .error e => .failed e
      | .ok slot => processFields rest { s with content_id := slot } errs
    | .contentDescription v =>
      match set_once s.content_description at_ "Content-Description" v with
      | .error e => .failed e
      | .ok slot => processFields rest { s with content_description := slot } errs
    | .optionalHeader _ _ => processFields rest s errs

end Mail

-- ======================================================================
-- src/mime/encoding.rs — quoted-printable transfer decoding and charset
-- lookup; src/mime/multipart.rs — the multipart boundary splitter.
-- ======================================================================

namespace Mime

open Cursor

inductive QpError where
  | lineOverflow : QpError
  | invalidEscapeSequence : QpError
  | illegalCharacter : QpError
deriving DecidableEq, Repr

/-- Outcome of the quoted-printable decoder: panic (slice indexing or the
initial `from_utf8(..).expect`), a `DecodeErrorKind`, or the decoded bytes. -/
inductive QpOut where
  | panicked : QpOut
  | failed (e : QpError) : QpOut
  | ok (result : List Nat) : QpOut
deriving DecidableEq, Repr

/-- `str::split_inclusive("\r\n")`: chunks end with their CRLF; a last chunk
without terminator is kept; the empty string yields no chunks. -/
def splitInclGo (cur : List Nat) : List Nat → List (List Nat)
  | 13 :: 10 :: rest => (cur ++ [13, 10]) :: splitInclGo [] rest
  | b :: rest => splitInclGo (cur ++ [b]) rest
  | [] => if cur.isEmpty then [] else [cur]

def splitIncl (l : List Nat) : List (List Nat) := splitInclGo [] l

/-- `str::trim_end_matches("\r\n")`: repeatedly strip a trailing CRLF
(implemented on the reversed list to stay structural). -/
def trimCrlfRevGo : List Nat → List Nat
  | 10 :: 13 :: rest => trimCrlfRevGo rest
  | l => l

def trimEndCrlf (l : List Nat) : List Nat := (trimCrlfRevGo l.reverse).reverse

/-- `b.is_ascii_control() && b != b'\t' || b > 126` -/
def isQpIllegal (b : Nat) : Bool := ((b < 32 || b == 127) && !(b == 9)) || 126 < b

/-- uppercase-only hex digit (`b'0'..=b'9' | b'A'..=b'F'`) -/
def hexUp (b : Nat) : Bool := (48 ≤ b && b ≤ 57) || (65 ≤ b && b ≤ 70)

def hexVal (b : Nat) : Nat := if b ≤ 57 then b - 48 else b - 55

/-- The `while !line.is_empty()` loop of `quoted_printable::decode` for one
line: a line equal to `=\r\n` is a soft break (elided); `=` followed by two
uppercase hex digits is an escape (fewer than two remaining bytes is a slice
index panic); otherwise the fragment up to the next `=` is checked against
the control-byte rule (after trimming trailing CRLFs) and copied verbatim. -/
def qpLine (line acc : List Nat) : QpOut :=
  match line with
  | [] => .ok acc
  | 61 :: t =>
    if t = [13, 10] then .ok acc
    else
      match t with
      | h :: l2 :: rest =>
        if hexUp h && hexUp l2 then qpLine rest (acc ++ [hexVal h * 16 + hexVal l2])
        else .failed .invalidEscapeSequence
      | _ => .panicked
  | b :: t =>
    let frag := b :: t.takeWhile (fun c => !(c == 61))
    let rest := t.dropWhile (fun c => !(c == 61))
    if (trimEndCrlf frag).any isQpIllegal then .failed .illegalCharacter
    else qpLine rest (acc ++ frag)
termination_by line.length
decreasing_by
  · simp only [List.length_cons]; omega
  · have := (List.dropWhile_sublist (l := t) (fun c => !(c == 61))).length_le
    simp only [List.length_cons]; omega

namespace quoted_printable

/-- The per-line loop of `quoted_printable::decode` over the
`split_inclusive("\r\n")` chunks: the length check `line.len() > 80`
(the source comment reads `78 + \r\n`) comes first, then the line body. -/
def decodeGo : List (List Nat) → List Nat → QpOut
  | [], acc => .ok acc
  | line :: rest, acc =>
    if line.length > 80 then .failed .lineOverflow
    else
      match qpLine line acc with
      | .ok acc2 => decodeGo rest acc2
      | other => other

/-- `quoted_printable::decode`.  The source first runs
`str::from_utf8(data).expect("TODO")`, which is the identity on the byte level
for valid UTF-8 and a panic otherwise; the theorems below quantify over
all-ASCII inputs, on which it is the identity, so that step is not repeated
here. -/
def decode (data : List Nat) : QpOut := decodeGo (splitIncl data) []

end quoted_printable

/-- `encoding::Charset` -/
inductive Charset where
  | usAscii | iso8859_2 | iso8859_3 | iso8859_4 | iso8859_5 | iso8859_6
  | iso8859_7 | iso8859_8 | iso8859_10 | iso8859_13 | iso8859_14
  | iso8859_15 | iso8859_16 | utf8
deriving DecidableEq, Repr

/-- The name/charset pairs of `Charset::by_name`, in source order.  The
`match_ignore_ascii_case!` macro expands to exactly this ordered chain of
`eq_ignore_ascii_case` tests. -/
def charsetTable : List (List Nat × Charset) :=
  [ (bytes "US-ASCII", .usAscii)
  , (bytes "ISO-8859-2", .iso8859_2)
  , (bytes "ISO-8859-3", .iso8859_3)
  , (bytes "ISO-8859-4", .iso8859_4)
  , (bytes "ISO-8859-5", .iso8859_5)
  , (bytes "ISO-8859-6", .iso8859_6)
  , (bytes "ISO-8859-7", .iso8859_7)
  , (bytes "ISO-8859-8", .iso8859_8)
  , (bytes "ISO-8859-10", .iso8859_10)
  , (bytes "ISO-8859-13", .iso8859_13)
  , (bytes "ISO-8859-14", .iso8859_14)
  , (bytes "ISO-8859-15", .iso8859_15)
  , (bytes "ISO-8859-16", .iso8859_16)
  , (bytes "UTF-8", .utf8) ]

def lookupChain : List (List Nat × Charset) → List Nat → Option Charset
  | [], _ => none
  | (lit, c) :: rest, name => if eqIgnoreCase name lit then some c else lookupChain rest name

/-- `Charset::by_name` -/
def Charset.by_name (name : List Nat) : Option Charset := lookupChain charsetTable name

namespace Multipart

inductive ParseError where
  | NoParts : ParseError
  | Unterminated : ParseError
deriving DecidableEq, Repr

/-- The filtered `boundaries` iterator of `multipart::split`: for every CRLF
in `data` minus its final CRLF, the pair `(line index + 1, position + 2)`,
kept when the following line begins with `--boundary` (checked with the
source's exact guards and order). -/
def delimCandidates (data boundary : List Nat) : List (Nat × Nat) :=
  (((crlfPositions (data.take (data.length - 2))).enum).map
      (fun p => (p.1 + 1, p.2 + 2))).filter
    (fun p =>
      decide (p.2 + 2 < data.length) && startsWith (data.drop p.2) [45, 45] &&
        startsWith (data.drop (p.2 + 2)) boundary)

/-- The `std::iter::from_fn` loop of `multipart::split`, combined with the
`collect::<Result<Vec<_>, _>>()` in `multipart::parse` (which stops at the
first error): consume the next delimiter, locate the current part's data
start after the delimiter line's CRLF, yield the part, and finish when the
just-consumed delimiter is followed by `--\r\n` (the close-delimiter). -/
def splitGo (data boundary : List Nat) :
    Nat → Nat → List (Nat × Nat) → List (Located (List Nat)) →
    Except ParseError (List (Located (List Nat)))
  | _, _, [], _ => .error .Unterminated
  | line, start, (nl, ns) :: rest, acc =>
    match (crlfPositions (data.drop start)).head? with
    | none => .error .Unterminated
    | some rel =>
      let ds := start + rel + 2
      let part : Located (List Nat) := ⟨⟨ds, line + 1, 1⟩, (data.drop ds).take (ns - ds)⟩
      if startsWith (data.drop (ns + 2 + boundary.length)) [45, 45, 13, 10] then
        .ok (acc ++ [part])
      else splitGo data boundary nl ns rest (acc ++ [part])

/-- `multipart::split` run to completion (as `multipart::parse` does when it
collects the parts): reject a body without a final CRLF (`Unterminated`),
find the first delimiter (body start, else the first candidate, else
`NoParts`), then loop. -/
def splitRun (data boundary : List Nat) : Except ParseError (List (Located (List Nat))) :=
  if endsWith data [13, 10] then
    let cands := delimCandidates data boundary
    if startsWith data [45, 45] && startsWith (data.drop 2) boundary then
      splitGo data boundary 0 0 cands []
    else
      match cands with
      | [] => .error .NoParts
      | (nl, ns) :: rest => splitGo data boundary nl ns rest []
  else .error .Unterminated

end Multipart

end Mime

-- ======================================================================
-- Theorems.  Helper lemmas first, then one theorem per claim (with a
-- witness where the claim's theorem carries a hypothesis).
-- ======================================================================

open Cursor Mail Mime Mime.Multipart Mime.quoted_printable

theorem startsWith_length {l p : List Nat} (h : startsWith l p = true) : p.length ≤ l.length := by
  induction p generalizing l with
  | nil => simp
  | cons x xs ih =>
    cases l with
    | nil => simp [startsWith] at h
    | cons y ys =>
      simp only [startsWith, Bool.and_eq_true] at h
      have := ih h.2
      simp only [List.length_cons]
      omega

theorem findSeq4_bound : ∀ {msg : List Nat} {cr : Nat},
    findSeq4 msg = some cr → cr + 4 ≤ msg.length := by
  intro msg
  induction msg with
  | nil => intro cr h; simp [findSeq4] at h
  | cons b rest ih =>
    intro cr h
    by_cases hs : startsWith (b :: rest) [13, 10, 13, 10] = true
    · simp [findSeq4, hs] at h
      have h4 := startsWith_length hs
      simp only [List.length_cons] at h4 ⊢
      omega
    · simp [findSeq4, hs] at h
      obtain ⟨cr2, hcr2, rfl⟩ := h
      have hb := ih hcr2
      simp only [List.length_cons]
      omega

theorem findSeq4_none : ∀ {msg : List Nat}, findSeq4 msg = none →
    ∀ i, startsWith (msg.drop i) [13, 10, 13, 10] = false := by
  intro msg
  induction msg with
  | nil => intro _ i; simp [startsWith]
  | cons b rest ih =>
    intro h i
    by_cases hs : startsWith (b :: rest) [13, 10, 13, 10] = true
    · simp [findSeq4, hs] at h
    · cases i with
      | zero => simpa using hs
      | succ j =>
        simp [findSeq4, hs] at h
        exact ih h j

theorem eqIgnoreCase_map {a b : List Nat} (h : eqIgnoreCase a b = true) :
    a.map toLowerByte = b.map toLowerByte := by simpa [eqIgnoreCase] using h

theorem eqIgnoreCase_congr {a b : List Nat} (h : eqIgnoreCase a b = true) (c : List Nat) :
    eqIgnoreCase a c = eqIgnoreCase b c := by
  simp [eqIgnoreCase, eqIgnoreCase_map h]

theorem lookupChain_congr {a b : List Nat} (h : eqIgnoreCase a b = true) :
    ∀ table, lookupChain table a = lookupChain table b := by
  intro table
  induction table with
  | nil => rfl
  | cons p rest ih =>
    obtain ⟨lit, c⟩ := p
    simp [lookupChain, eqIgnoreCase_congr h, ih]

/-- `Charset::by_name` only depends on its argument up to ASCII case. -/
theorem by_name_congr {a b : List Nat} (h : eqIgnoreCase a b = true) :
    Charset.by_name a = Charset.by_name b := lookupChain_congr h charsetTable

/-- The only `LineOverflow` in the quoted-printable decoder is the per-line
length check; the line body loop never produces it. -/
theorem qpLine_ne_overflow : ∀ (line acc : List Nat),
    qpLine line acc ≠ .failed .lineOverflow := by
  intro line acc
  induction line, acc using qpLine.induct <;>
    (simp only [qpLine]; repeat' split) <;> simp_all

theorem decodeGo_ok_bound : ∀ (lines : List (List Nat)) (acc r : List Nat),
    decodeGo lines acc = .ok r → ∀ l ∈ lines, l.length ≤ 80 := by
  intro lines
  induction lines with
  | nil => simp
  | cons line rest ih =>
    intro acc r h l hl
    by_cases hlen : line.length > 80
    · simp [decodeGo, hlen] at h
    · simp only [decodeGo, hlen, if_false, gt_iff_lt,
        if_neg (by omega : ¬ 80 < line.length)] at h
      cases hq : qpLine line acc with
      | ok acc2 =>
        rw [hq] at h
        rcases List.mem_cons.mp hl with rfl | hl2
        · omega
        · exact ih acc2 r h l hl2
      | failed e => rw [hq] at h; cases h
      | panicked => rw [hq] at h; cases h

theorem decodeGo_no_overflow : ∀ (lines : List (List Nat)) (acc : List Nat),
    (∀ l ∈ lines, l.length ≤ 80) → decodeGo lines acc ≠ .failed .lineOverflow := by
  intro lines
  induction lines with
  | nil => simp [decodeGo]
  | cons line rest ih =>
    intro acc hb
    have hl : line.length ≤ 80 := hb line (by simp)
    simp only [decodeGo, gt_iff_lt, if_neg (by omega : ¬ 80 < line.length)]
    cases hq : qpLine line acc with
    | ok acc2 => exact ih acc2 (fun l hl2 => hb l (by simp [hl2]))
    | failed e =>
      intro hcon
      cases hcon
      exact qpLine_ne_overflow line acc (by rw [hq])
    | panicked => simp

/-- If no consumed delimiter candidate is followed by `--\r\n`, the split loop
can only run out of candidates (or fail to find a line end) — either way it
ends in `Unterminated`. -/
theorem splitGo_unterminated (data boundary : List Nat) :
    ∀ (cands : List (Nat × Nat)),
    (∀ p ∈ cands,
        startsWith (data.drop (p.2 + 2 + boundary.length)) [45, 45, 13, 10] = false) →
    ∀ (line start : Nat) (acc : List (Located (List Nat))),
    splitGo data boundary line start cands acc = .error .Unterminated := by
  intro cands
  induction cands with
  | nil => intro _ line start acc; simp [splitGo]
  | cons p rest ih =>
    intro hclose line start acc
    obtain ⟨nl, ns⟩ := p
    have hc := hclose (nl, ns) (by simp)
    simp only [splitGo]
    cases (crlfPositions (data.drop start)).head? with
    | none => rfl
    | some rel =>
      simp only [hc]
      simp only [Bool.false_eq_true, if_false]
      exact ih (fun q hq => hclose q (by simp [hq])) nl ns _

-- ---------------------------------------------------------------- claims ---

/-- Claim C1: the spec's happy path expects `EHLO c.example` to be accepted
(250 multi-line greeting) because the SMTP domain parser accepts dotted
domains.  The code disagrees: `smtp::syntax::domain` never consumes the `.`
separating sub-domains (contradicting the `Domain = sub-domain *("."
sub-domain)` comment right above it), so the dotted domain is rejected and
the engine answers with a 500 syntax error.  This theorem evaluates the code
at the failing input. -/
theorem c1_ehlo_dotted_domain_rejected :
    Smtp.domain (bytes "c.example") = .errS ∧
    Smtp.Command.parse (bytes "EHLO c.example") = .errSyntax ∧
    Smtp.Conn.line ⟨.handshake, none, [], 65536⟩ (bytes "EHLO c.example") false
      = (.response .commandSyntax500, ⟨.handshake, none, [], 65536⟩) := by
  refine ⟨?_, ?_, ?_⟩ <;>
    simp [Smtp.Conn.line, Smtp.Command.parse, Smtp.dispatchKeyword, Smtp.parse_ehlo,
      Smtp.domain_or_address, Smtp.domain, Smtp.domainGo, Smtp.ldhCount,
      Smtp.address_literal, Smtp.atom, Smtp.isAtext, isAlnum, isAscii, bytes,
      startsWith, startsWithCaseless, endsWith, eqIgnoreCase, toLowerByte,
      List.takeWhile]

/-- Claim C2: the spec says a second occurrence of a recognised
non-repeatable header (e.g. `Subject`) is recorded in the accumulated errors
and is not fatal.  In the code, every `set_once` result in the header loop of
`mail::parse` is propagated with `?`, so the located `duplicate header
Subject` error aborts the parse (and hence `submit`) instead of being
recorded.  This theorem evaluates that loop on any two `Subject` fields. -/
theorem c2_duplicate_subject_is_fatal (at1 at2 : Location) (v1 v2 : Folded) :
    Mail.processFields
      [.parsedField at1 (.subject v1), .parsedField at2 (.subject v2)] .init []
      = .failed ⟨at2, .custom "duplicate header Subject"⟩ := rfl

/-- Claim C3: the spec's state table expects a MAIL command in the
`Handshake` state (before any HELO/EHLO) to be refused with `503 Bad
sequence`, leaving the state unchanged.  `Connection::mail` performs no state
check at all, so the command is accepted with `250 OK` and the session moves
to `Recipients`.  This theorem evaluates the engine at the failing input. -/
theorem c3_mail_accepted_in_handshake :
    Smtp.Conn.line ⟨.handshake, none, [], 65536⟩ (bytes "MAIL FROM:<>") false
      = (.response .ok250, ⟨.recipients, some .null, [], 65536⟩) := by
  simp [Smtp.Conn.line, Smtp.Conn.mail, Smtp.Conn.reset_buffers, Smtp.Command.parse,
    Smtp.dispatchKeyword, Smtp.parse_mail, Smtp.mailParamsGo, Smtp.parameter,
    Smtp.reverse_path, Smtp.path, Smtp.atom, Smtp.domain, Smtp.domainGo,
    Smtp.ldhCount, Smtp.isAtext, isAlnum, isAscii, bytes, startsWith,
    startsWithCaseless, endsWith, eqIgnoreCase, toLowerByte, List.takeWhile]

/-- Claim C4: in a multipart body whose close-delimiter `--boundary--` never
appears (no delimiter candidate is followed by `--\r\n`), splitting the body
into parts fails with `Unterminated` — unless not even an opening delimiter
exists, which is the separate `NoParts` error excluded by the second
hypothesis.  `multipart::parse` collects the split iterator, so this error
propagates and makes `submit` fail. -/
theorem c4_missing_close_delimiter_unterminated (data boundary : List Nat)
    (hclose : ∀ p ∈ delimCandidates data boundary,
        startsWith (data.drop (p.2 + 2 + boundary.length)) [45, 45, 13, 10] = false)
    (hnp : splitRun data boundary ≠ .error .NoParts) :
    splitRun data boundary = .error .Unterminated := by
  unfold splitRun at *
  by_cases he : endsWith data [13, 10] = true
  · simp only [he, if_true] at *
    by_cases hs : (startsWith data [45, 45] && startsWith (data.drop 2) boundary) = true
    · simp only [hs, if_true]
      exact splitGo_unterminated data boundary _ hclose 0 0 []
    · simp only [hs, Bool.false_eq_true, if_false] at *
      cases hc : delimCandidates data boundary with
      | nil => rw [hc] at hnp; simp at hnp
      | cons p rest =>
        obtain ⟨nl, ns⟩ := p
        exact splitGo_unterminated data boundary rest
          (fun q hq => hclose q (by simp [hc, hq])) nl ns []
  · simp [he]

/-- Witness for C4: the spec's scenario-6 body with the closing `--b--\r\n`
removed — a two-part multipart body with delimiters but no close-delimiter —
splits to `Unterminated`. -/
theorem c4_missing_close_delimiter_witness :
    (∀ p ∈ delimCandidates (bytes "--b\r\nx: 1\r\n\r\nhi\r\n--b\r\nx: 2\r\n\r\nyo\r\n")
        (bytes "b"),
      startsWith ((bytes "--b\r\nx: 1\r\n\r\nhi\r\n--b\r\nx: 2\r\n\r\nyo\r\n").drop
        (p.2 + 2 + (bytes "b").length)) [45, 45, 13, 10] = false) ∧
    splitRun (bytes "--b\r\nx: 1\r\n\r\nhi\r\n--b\r\nx: 2\r\n\r\nyo\r\n") (bytes "b")
      = .error .Unterminated :=
  ⟨by decide, c4_missing_close_delimiter_unterminated _ _ (by decide) (by decide)⟩

/-- Claim C5: the spec says `unfold` returns the span with each two-byte CRLF
pair removed, preserving all other bytes, including the bytes after the last
fold.  On the successfully parsed unstructured span `"a\r\n b"` the code
returns only `"a"`: the loop slices `&rest[2..]` from the start of `rest`
instead of past the CR, and the remainder after the last CR is never
appended.  The spec-side CRLF removal gives `"a b"`. -/
theorem c5_unfold_drops_folded_tail :
    (unstructured (Buffer.new (bytes "a\r\n b"))).1 = .ok ⟨bytes "a\r\n b"⟩ ∧
    Folded.unfold ⟨bytes "a\r\n b"⟩ = bytes "a" ∧
    specCrlfRemoved (bytes "a\r\n b") = bytes "a b" ∧
    Folded.unfold ⟨bytes "a\r\n b"⟩ ≠ specCrlfRemoved (bytes "a\r\n b") := by
  refine ⟨?_, ?_, by decide, ?_⟩ <;>
    simp [unstructured, unstructuredLoop, Buffer.new, Buffer.maybe, Buffer.atomic, fws,
      Buffer.take_while, Buffer.expect, wsp, Buffer.advance, isWsp, isVchar, bytes,
      startsWith, crlfPositions, crlfPosGo, Folded.unfold, unfoldGo, findByte,
      specCrlfRemoved]

/-- Claim C6 (amended): the quoted-printable decoder's line limit is 78
content bytes plus CRLF (80 bytes total), not the spec's 76: a successful
decode contains no line longer than 80 bytes including its CRLF, and inputs
whose lines are all within the limit are never rejected with `LineOverflow`.
The ASCII hypothesis pins the domain on which the source's initial
`from_utf8` is the identity. -/
theorem c6_qp_line_limit_amended (data : List Nat) (hascii : ∀ b ∈ data, b ≤ 127) :
    ((∀ l ∈ splitIncl data, l.length ≤ 80) →
        quoted_printable.decode data ≠ .failed .lineOverflow) ∧
    (∀ r, quoted_printable.decode data = .ok r → ∀ l ∈ splitIncl data, l.length ≤ 80) :=
  ⟨fun hb => decodeGo_no_overflow _ _ hb, fun r h => decodeGo_ok_bound _ _ r h⟩

/-- Witness for C6 (amended), at the input `"hi\r\n"`. -/
theorem c6_qp_line_limit_witness :
    (∀ b ∈ bytes "hi\r\n", b ≤ 127) ∧
    quoted_printable.decode (bytes "hi\r\n") ≠ .failed .lineOverflow :=
  ⟨by decide, (c6_qp_line_limit_amended (bytes "hi\r\n") (by decide)).1 (by decide)⟩

set_option maxRecDepth 4000 in
/-- Counterexample for C6 as stated: a line of 77 content bytes (more than
76) before its CRLF decodes successfully instead of failing with
`LineOverflow`. -/
theorem c6_qp_line_limit_counterexample :
    quoted_printable.decode (List.replicate 77 97 ++ [13, 10])
        = .ok (List.replicate 77 97 ++ [13, 10]) ∧
    76 < (List.replicate 77 (97 : Nat)).length := by
  constructor
  · simp [quoted_printable.decode, quoted_printable.decodeGo, splitIncl, splitInclGo,
      qpLine, trimEndCrlf, trimCrlfRevGo, isQpIllegal, List.takeWhile, List.dropWhile,
      List.replicate]
  · decide

/-- Claim C7 (amended): charset lookup is case-insensitive and succeeds for
US-ASCII, UTF-8 and ISO-8859-N for N in {2,3,4,5,6,7,8,10,13,14,15,16}, but
ISO-8859-9, ISO-8859-11 and ISO-8859-12 are not recognised (in any case) —
`by_name` returns `none` for them. -/
theorem c7_charset_lookup_amended (name : List Nat) :
    (eqIgnoreCase name (bytes "US-ASCII") = true → Charset.by_name name = some .usAscii) ∧
    (eqIgnoreCase name (bytes "ISO-8859-2") = true → Charset.by_name name = some .iso8859_2) ∧
    (eqIgnoreCase name (bytes "ISO-8859-3") = true → Charset.by_name name = some .iso8859_3) ∧
    (eqIgnoreCase name (bytes "ISO-8859-4") = true → Charset.by_name name = some .iso8859_4) ∧
    (eqIgnoreCase name (bytes "ISO-8859-5") = true → Charset.by_name name = some .iso8859_5) ∧
    (eqIgnoreCase name (bytes "ISO-8859-6") = true → Charset.by_name name = some .iso8859_6) ∧
    (eqIgnoreCase name (bytes "ISO-8859-7") = true → Charset.by_name name = some .iso8859_7) ∧
    (eqIgnoreCase name (bytes "ISO-8859-8") = true → Charset.by_name name = some .iso8859_8) ∧
    (eqIgnoreCase name (bytes "ISO-8859-10") = true → Charset.by_name name = some .iso8859_10) ∧
    (eqIgnoreCase name (bytes "ISO-8859-13") = true → Charset.by_name name = some .iso8859_13) ∧
    (eqIgnoreCase name (bytes "ISO-8859-14") = true → Charset.by_name name = some .iso8859_14) ∧
    (eqIgnoreCase name (bytes "ISO-8859-15") = true → Charset.by_name name = some .iso8859_15) ∧
    (eqIgnoreCase name (bytes "ISO-8859-16") = true → Charset.by_name name = some .iso8859_16) ∧
    (eqIgnoreCase name (bytes "UTF-8") = true → Charset.by_name name = some .utf8) ∧
    (eqIgnoreCase name (bytes "ISO-8859-9") = true → Charset.by_name name = none) ∧
    (eqIgnoreCase name (bytes "ISO-8859-11") = true → Charset.by_name name = none) ∧
    (eqIgnoreCase name (bytes "ISO-8859-12") = true → Charset.by_name name = none) := by
  refine ⟨?_, ?_, ?_, ?_, ?_, ?_, ?_, ?_, ?_, ?_, ?_, ?_, ?_, ?_, ?_, ?_, ?_⟩ <;>
    (intro h; rw [by_name_congr h]; decide)

/-- Witness for C7 (amended), at the lower-case name `"utf-8"`. -/
theorem c7_charset_lookup_witness :
    eqIgnoreCase (bytes "utf-8") (bytes "UTF-8") = true ∧
    Charset.by_name (bytes "utf-8") = some .utf8 :=
  ⟨by decide, (c7_charset_lookup_amended (bytes "utf-8")).2.2.2.2.2.2.2.2.2.2.2.2.2.1
    (by decide)⟩

/-- Counterexample for C7 as stated: `ISO-8859-9`, in the grammar's exact
spelling, is not recognised. -/
theorem c7_charset_lookup_counterexample :
    Charset.by_name (bytes "ISO-8859-9") = none ∧
    Charset.by_name (bytes "iso-8859-9") = none ∧
    Charset.by_name (bytes "ISO-8859-11") = none ∧
    Charset.by_name (bytes "ISO-8859-12") = none := by decide

/-- Claim C8 (amended): for every message containing `CRLF CRLF`, the header
returned by `separate_message` keeps the first CRLF of the separator, so
header length + body length + 2 = input length (not + 4 as the spec says). -/
theorem c8_separate_message_amended (msg : List Nat)
    (h : ∃ i, startsWith (msg.drop i) [13, 10, 13, 10] = true) :
    (separate_message msg).1.length + (separate_message msg).2.item.length + 2
      = msg.length := by
  obtain ⟨i, hi⟩ := h
  cases hf : findSeq4 msg with
  | none => exact absurd (findSeq4_none hf i) (by simp [hi])
  | some cr =>
    have hb := findSeq4_bound hf
    simp [separate_message, hf, List.length_take, List.length_drop]
    omega

/-- Witness for C8 (amended), at the message `"X\r\n\r\nY"`. -/
theorem c8_separate_message_witness :
    (∃ i, startsWith ((bytes "X\r\n\r\nY").drop i) [13, 10, 13, 10] = true) ∧
    (separate_message (bytes "X\r\n\r\nY")).1.length
      + (separate_message (bytes "X\r\n\r\nY")).2.item.length + 2
      = (bytes "X\r\n\r\nY").length :=
  ⟨⟨1, by decide⟩, c8_separate_message_amended _ ⟨1, by decide⟩⟩

/-- Counterexample for C8 as stated: on `"A: B\r\n\r\nbody"` the two lengths
plus 4 give 14, not the input length 12. -/
theorem c8_separate_message_counterexample :
    ¬ ((separate_message (bytes "A: B\r\n\r\nbody")).1.length
        + (separate_message (bytes "A: B\r\n\r\nbody")).2.item.length + 4
        = (bytes "A: B\r\n\r\nbody").length) := by decide

/-- Claim C9: for every parser body `f` and cursor `b`, if `atomic(f)` fails
the cursor — byte slice and location alike — is exactly the one before the
call, and if `f` succeeds `atomic(f)` commits `f`'s value and final cursor. -/
theorem c9_atomic_try_commit {α : Type} (f : Buffer → Cursor.PRes α) (b : Buffer) :
    (∀ e, (Buffer.atomic f b).1 = .error e → (Buffer.atomic f b).2 = b) ∧
    (∀ v c, f b = (.ok v, c) → Buffer.atomic f b = (.ok v, c)) := by
  constructor
  · intro e h
    cases hfb : f b with
    | mk r c =>
      cases r with
      | ok v => simp [Buffer.atomic, hfb] at h
      | error e2 => simp [Buffer.atomic, hfb]
  · intro v c h
    simp [Buffer.atomic, h]

/-- Witness for C9: a failing `expect` leaves the cursor untouched; a
succeeding one is committed. -/
theorem c9_atomic_try_commit_witness :
    (Buffer.atomic (Buffer.expect (bytes "a")) (Buffer.new (bytes "xy"))).2
        = Buffer.new (bytes "xy") ∧
    Buffer.atomic (Buffer.expect (bytes "x")) (Buffer.new (bytes "xy"))
        = (.ok (), (Buffer.new (bytes "xy")).advance 1) :=
  ⟨(c9_atomic_try_commit (Buffer.expect (bytes "a")) (Buffer.new (bytes "xy"))).1
      ⟨⟨0, 1, 1⟩, .expected (bytes "a")⟩ rfl,
   (c9_atomic_try_commit (Buffer.expect (bytes "x")) (Buffer.new (bytes "xy"))).2
      () ((Buffer.new (bytes "xy")).advance 1) rfl⟩

/-- Claim C10: command parsing is claimed total, the domain parser never
indexing past its slice.  In fact `smtp::syntax::domain` indexes `line[0]` on
an empty slice, so `HELO ` and `EHLO ` (keyword, space, empty argument) panic
inside `Command::parse`.  This theorem evaluates the code at those inputs. -/
theorem c10_command_parse_panics :
    Smtp.domain ([] : List Nat) = .oob ∧
    Smtp.Command.parse (bytes "HELO ") = .oob ∧
    Smtp.Command.parse (bytes "EHLO ") = .oob ∧
    Smtp.Conn.line ⟨.relaxed, none, [], 65536⟩ (bytes "EHLO ") false
      = (.panicked, ⟨.relaxed, none, [], 65536⟩) := by
  refine ⟨?_, ?_, ?_, ?_⟩ <;>
    simp [Smtp.Conn.line, Smtp.Command.parse, Smtp.dispatchKeyword, Smtp.parse_ehlo,
      Smtp.parse_helo, Smtp.domain_or_address, Smtp.domain, Smtp.domainGo,
      Smtp.ldhCount, Smtp.address_literal, Smtp.atom, Smtp.isAtext, isAlnum, isAscii,
      bytes, startsWith, startsWithCaseless, endsWith, eqIgnoreCase, toLowerByte,
      List.takeWhile]

end SmtpSink
